import Mathlib

/-!
Verification of the execution engine in src/codesubmit/executor.py.

The engine is embedded shallowly. Pure data (SourceFile, RunConfig,
ExecutionResult, the command resolver, the shlex join/split pair) is
translated directly. Effects of the operating system and of the child
processes (what a launched process prints, whether it finishes, times
out, or fails to launch, and the wall-clock readings) are supplied by
explicit oracle parameters, one per launch site, so that the control
flow of execute_files stays exactly the one of the source.
-/

/-- Apostrophe character, kept as a named constant. -/
def apos : Char := Char.ofNat 39

/-- Double-quote character. -/
def dq : Char := Char.ofNat 34

/-- Backslash character. -/
def bslash : Char := Char.ofNat 92

/-- Characters shlex.quote leaves unquoted: the ASCII regex
class of word characters plus @ % + = : , . / - (re pattern
in CPython shlex._find_unsafe, re.ASCII mode). -/
def safeChar (c : Char) : Bool :=
  c.isAlphanum || c = '_' || c = '@' || c = '%' || c = '+' || c = '=' ||
  c = ':' || c = ',' || c = '.' || c = '/' || c = '-'

/-- Body of shlex.quote for an unsafe string: each apostrophe is
replaced by the five characters apostrophe, double quote, apostrophe,
double quote, apostrophe (CPython: s.replace with that literal). -/
def quoteInner : List Char → List Char
  | [] => []
  | c :: cs =>
    if c = apos then apos :: dq :: apos :: dq :: apos :: quoteInner cs
    else c :: quoteInner cs

/-- shlex.quote: empty string becomes two apostrophes, a fully safe
string is returned unchanged, anything else is wrapped in apostrophes
with inner apostrophes rewritten by quoteInner. -/
def shQuote (s : String) : String :=
  if s.data.isEmpty then String.mk [apos, apos]
  else if s.data.all safeChar then s
  else String.mk (apos :: (quoteInner s.data ++ [apos]))

/-- shlex.join: the quoted tokens joined by single spaces. -/
def shlexJoin : List String → String
  | [] => ""
  | [x] => shQuote x
  | x :: y :: xs => shQuote x ++ " " ++ shlexJoin (y :: xs)

/-- States of the CPython shlex lexer in posix mode with
whitespace_split set and comment characters disabled, as used by
shlex.split: skipping whitespace, inside a word, inside a quoted
section, or just after an escape character.  The escape context
records whether the escape was met inside a double-quoted section
(some q) or in ordinary word context (none). -/
inductive LexState where
  | ws
  | word
  | inQ (q : Char)
  | inEsc (ctx : Option Char)
deriving DecidableEq

/-- shlex whitespace characters (space, tab, carriage return, newline). -/
def isWsChar (c : Char) : Bool := c = ' ' || c = '\t' || c = '\r' || c = '\n'

/-- shlex quote characters (apostrophe and double quote). -/
def isQChar (c : Char) : Bool := c = apos || c = dq

/-- Token emission of shlex.read_token in posix mode: a token is
produced when its text is nonempty or when some quoted section was
seen (so a quoted empty string yields an empty token). -/
def emitTok (tok : List Char) (quoted : Bool) (acc : List String) : List String :=
  if !tok.isEmpty || quoted then acc ++ [String.mk tok] else acc

/-- The shlex.split loop (posix mode, whitespace_split, commenters
disabled, escape character backslash, escaped quotes limited to the
double quote), one character per step.  Returns none where CPython
raises ValueError (unclosed quotation or trailing escape). -/
def splitLoop : List Char → LexState → List Char → Bool → List String → Option (List String)
  | [], .ws, tok, quoted, acc => some (emitTok tok quoted acc)
  | [], .word, tok, quoted, acc => some (emitTok tok quoted acc)
  | [], .inQ _, _, _, _ => none
  | [], .inEsc _, _, _, _ => none
  | c :: cs, .ws, tok, quoted, acc =>
    if isWsChar c then
      if !tok.isEmpty || quoted then splitLoop cs .ws [] false (acc ++ [String.mk tok])
      else splitLoop cs .ws tok quoted acc
    else if c = bslash then splitLoop cs (.inEsc none) tok quoted acc
    else if isQChar c then splitLoop cs (.inQ c) tok quoted acc
    else splitLoop cs .word [c] quoted acc
  | c :: cs, .word, tok, quoted, acc =>
    if isWsChar c then splitLoop cs .ws [] false (emitTok tok quoted acc)
    else if isQChar c then splitLoop cs (.inQ c) tok quoted acc
    else if c = bslash then splitLoop cs (.inEsc none) tok quoted acc
    else splitLoop cs .word (tok ++ [c]) quoted acc
  | c :: cs, .inQ q, tok, _, acc =>
    if c = q then splitLoop cs .word tok true acc
    else if c = bslash ∧ q = dq then splitLoop cs (.inEsc (some q)) tok true acc
    else splitLoop cs (.inQ q) (tok ++ [c]) true acc
  | c :: cs, .inEsc ctx, tok, quoted, acc =>
    match ctx with
    | none => splitLoop cs .word (tok ++ [c]) quoted acc
    | some q =>
      if c = bslash ∨ c = q then splitLoop cs (.inQ q) (tok ++ [c]) quoted acc
      else splitLoop cs (.inQ q) (tok ++ [bslash, c]) quoted acc

/-- shlex.split of a whole string, starting between tokens. -/
def shlexSplit (s : String) : Option (List String) := splitLoop s.data .ws [] false []

/-- UTF-8 encoding of one Unicode scalar value, as byte values. -/
def utf8Char (n : Nat) : List Nat :=
  if n < 128 then [n]
  else if n < 2048 then [192 + n / 64, 128 + n % 64]
  else if n < 65536 then [224 + n / 4096, 128 + (n / 64) % 64, 128 + n % 64]
  else [240 + n / 262144, 128 + (n / 4096) % 64, 128 + (n / 64) % 64, 128 + n % 64]

/-- UTF-8 encoding of a string, modelling the Python str.encode call. -/
def utf8Encode (s : String) : List Nat := s.data.flatMap (fun c => utf8Char c.toNat)

/-- SourceFile as produced by the scanner collaborator: absolute path,
path relative to the scan root, detected language name. -/
structure SourceFile where
  path : String
  rel_path : String
  language : String
deriving DecidableEq, Repr

/-- RunConfig as produced by the configuration collaborator.  The
source reads execution_enabled, timeout, stdin_input and interactive;
input_file appears in the spec of the configuration but is never read
by the engine. -/
structure RunConfig where
  execution_enabled : Bool
  timeout : Nat
  stdin_input : Option String
  input_file : Option String
  interactive : Bool
deriving DecidableEq, Repr

/-- Ambient machine state read by the engine: os.getcwd(), the
USERNAME environment variable, os.name, and sys.executable. -/
structure Env where
  cwd : String
  username : Option String
  osName : String
  pythonExe : String
deriving DecidableEq, Repr

/-- ExecutionResult of executor.py (dataclass fields in order). -/
structure ExecutionResult where
  stdout : String
  stderr : String
  exit_code : Int
  duration : Nat
  command : String
  context : List (String × String)
  timed_out : Bool
deriving DecidableEq, Repr

/-- get_runner_command of executor.py: Python runs through the
interpreter in unbuffered mode, Java through the java launcher, any
other language yields the empty command.  sys.executable is passed
in explicitly as pythonExe. -/
def get_runner_command (pythonExe : String) (file_path : String) (language : String) :
    List String :=
  if language = "Python" then [pythonExe, "-u", file_path]
  else if language = "Java" then ["java", file_path]
  else []

/-- The context dict built at executor.py lines 80-84: cwd from
os.getcwd, env_user from os.environ.get of USERNAME with default
unknown, env_os from os.name. -/
def mkContext (env : Env) : List (String × String) :=
  [("cwd", env.cwd),
   ("env_user", env.username.getD "unknown"),
   ("env_os", env.osName)]

/-- Stdin bytes computed at executor.py line 164: the UTF-8 encoding
of config.stdin_input when that value is truthy (set and nonempty),
empty bytes otherwise.  No other configuration field is consulted. -/
def stdinBytes (cfg : RunConfig) : List Nat :=
  match cfg.stdin_input with
  | some s => if s = "" then [] else utf8Encode s
  | none => []

/-- Modelled from the spec: the stdin selection the specification
describes for batch mode, with input-file precedence — when
config.input-file is set and the file exists its full contents are the
stdin bytes, otherwise the stdin-input text is used.  Present only for
comparison with stdinBytes, which is what the source computes. -/
def specStdinBytes (inputFileExists : Bool) (inputFileBytes : List Nat)
    (cfg : RunConfig) : List Nat :=
  match cfg.input_file with
  | some _ => if inputFileExists then inputFileBytes else stdinBytes cfg
  | none => stdinBytes cfg

/-- Outcome of the batch-mode subprocess.run call, as decided by the
operating system and the child.  ok carries the captured stdout and
stderr already decoded (utf-8 with replacement — no claim depends on
the byte-level decoding) and the return code.  timeoutExpired is the
TimeoutExpired exception: it carries the partial output the exception
object holds (which the source never reads) and the exception text.
launchError is any other exception with its text. -/
inductive BatchOutcome where
  | ok (out err : String) (rc : Int)
  | timeoutExpired (partOut partErr msg : String)
  | launchError (msg : String)
deriving DecidableEq, Repr

/-- Outcome of an interactive-mode run.  done: the wait returned,
with the transcripts accumulated by the relay threads and the return
code.  timedOut: wait raised TimeoutExpired, the child was killed;
the transcripts hold whatever the relays had captured; the return
code of the killed child is never reaped by the engine (no wait or
poll after the kill on the main thread), so it reads as None.
popenFail: the Popen call itself raised, with the exception text;
the transcript buffers are still empty at that point. -/
inductive InterOutcome where
  | done (capOut capErr : List String) (rc : Int)
  | timedOut (capOut capErr : List String)
  | popenFail (msg : String)
deriving DecidableEq, Repr

/-- One iteration of the loop body of execute_files (lines 69-200)
for a runnable file: branch on config.interactive, in each branch let
the oracle name the outcome the operating system produced, and build
the ExecutionResult exactly as the source does.  The exception paths
(line 188) set stdout to the join of the captured buffers — empty,
since in batch mode the capture assignment at line 172 is only
reached on success and in interactive mode a Popen failure precedes
any capture — stderr to str(e), exit code -1, timed_out False.  The
interactive timeout path reads proc.returncode as None (line 160 via
line 181 gives -1). -/
def runFile (env : Env) (cfg : RunConfig) (bb : Nat → List Nat → BatchOutcome)
    (ib : Nat → InterOutcome) (dur : Nat → Nat) (i : Nat) (file : SourceFile) :
    Option ExecutionResult :=
  let cmd := get_runner_command env.pythonExe file.path file.language
  if cmd.isEmpty then none
  else
    let context := mkContext env
    let d := dur i
    some (if cfg.interactive then
      match ib i with
      | .done capOut capErr rc =>
        { stdout := String.join capOut, stderr := String.join capErr, exit_code := rc,
          duration := d, command := shlexJoin cmd, context := context, timed_out := false }
      | .timedOut capOut capErr =>
        { stdout := String.join capOut, stderr := String.join capErr, exit_code := -1,
          duration := d, command := shlexJoin cmd, context := context, timed_out := true }
      | .popenFail msg =>
        { stdout := "", stderr := msg, exit_code := -1,
          duration := d, command := shlexJoin cmd, context := context, timed_out := false }
    else
      match bb i (stdinBytes cfg) with
      | .ok out err rc =>
        { stdout := out, stderr := err, exit_code := rc,
          duration := d, command := shlexJoin cmd, context := context, timed_out := false }
      | .timeoutExpired _ _ msg =>
        { stdout := "", stderr := msg, exit_code := -1,
          duration := d, command := shlexJoin cmd, context := context, timed_out := false }
      | .launchError msg =>
        { stdout := "", stderr := msg, exit_code := -1,
          duration := d, command := shlexJoin cmd, context := context, timed_out := false })

/-- The per-file loop of execute_files, indexed so that each file
consults the oracles at its own position. -/
def executeFrom (env : Env) (cfg : RunConfig) (bb : Nat → List Nat → BatchOutcome)
    (ib : Nat → InterOutcome) (dur : Nat → Nat) :
    Nat → List SourceFile → List (SourceFile × Option ExecutionResult)
  | _, [] => []
  | i, f :: fs =>
    (f, runFile env cfg bb ib dur i f) :: executeFrom env cfg bb ib dur (i + 1) fs

/-- execute_files of executor.py: when execution is disabled every
file maps to (file, none) and no oracle is consulted; otherwise the
files are processed sequentially in order. -/
def execute_files (env : Env) (cfg : RunConfig) (bb : Nat → List Nat → BatchOutcome)
    (ib : Nat → InterOutcome) (dur : Nat → Nat) (files : List SourceFile) :
    List (SourceFile × Option ExecutionResult) :=
  if cfg.execution_enabled then executeFrom env cfg bb ib dur 0 files
  else files.map (fun f => (f, none))

/-- input_thread_func of executor.py (lines 122-138): while the child
is alive (proc.poll() is None, queried through the alive oracle per
iteration), read one terminal line (the list models the lines readline
yields before end of input), stop at end of input, otherwise write and
flush the line to the child stdin (joint success reported by the
writeOk oracle) and only then append it to the captured stdout
transcript; on a write or flush failure stop without recording. -/
def inputRelay (alive writeOk : Nat → Bool) : List String → Nat → List String
  | lines, i =>
    if alive i then
      match lines with
      | [] => []
      | l :: ls => if writeOk i then l :: inputRelay alive writeOk ls (i + 1) else []
    else []

/-- Concrete environment used by witnesses and counterexamples. -/
def envX : Env :=
  { cwd := "/work", username := some "alice", osName := "posix",
    pythonExe := "/usr/bin/python3" }

/-- Concrete Python source file used by witnesses and counterexamples. -/
def fileX : SourceFile := { path := "/work/a.py", rel_path := "a.py", language := "Python" }

/-- Concrete batch-mode configuration with both stdin-input and an
input-file set, used by witnesses and counterexamples. -/
def cfgB : RunConfig :=
  { execution_enabled := true, timeout := 5, stdin_input := some "abc",
    input_file := some "in.txt", interactive := false }

/-- Concrete interactive-mode configuration. -/
def cfgI : RunConfig :=
  { execution_enabled := true, timeout := 5, stdin_input := none,
    input_file := none, interactive := true }

/-- Concrete configuration with execution disabled. -/
def cfgD : RunConfig :=
  { execution_enabled := false, timeout := 5, stdin_input := none,
    input_file := none, interactive := false }

/-- Batch oracle that always reports a clean run, used as a default. -/
def bbZero : Nat → List Nat → BatchOutcome := fun _ _ => .ok "" "" 0

/-- Interactive oracle that always reports a clean run, used as a default. -/
def ibZero : Nat → InterOutcome := fun _ => .done [] [] 0

/-- Concrete environment with USERNAME unset, for the context claim. -/
def envN : Env :=
  { cwd := "/w", username := none, osName := "nt", pythonExe := "py" }

/-- Characters that keep the lexer in plain word state: not whitespace,
not a quote, not the escape character. -/
def PlainChar (c : Char) : Prop :=
  isWsChar c = false ∧ isQChar c = false ∧ c ≠ bslash

/-- Whether lexing the shlex.quote of a token passes through a quoted
section: true for the empty token and for unsafe tokens. -/
def qFlag (t : String) : Bool := t.data.isEmpty || !t.data.all safeChar

lemma executeFrom_map_fst (env : Env) (cfg : RunConfig) (bb : Nat → List Nat → BatchOutcome)
    (ib : Nat → InterOutcome) (dur : Nat → Nat) :
    ∀ (k : Nat) (files : List SourceFile),
      (executeFrom env cfg bb ib dur k files).map Prod.fst = files := by
  intro k files
  induction files generalizing k with
  | nil => simp [executeFrom]
  | cons f fs ih => simp [executeFrom, ih]

lemma execute_files_map_fst (env : Env) (cfg : RunConfig) (bb : Nat → List Nat → BatchOutcome)
    (ib : Nat → InterOutcome) (dur : Nat → Nat) (files : List SourceFile) :
    (execute_files env cfg bb ib dur files).map Prod.fst = files := by
  by_cases he : cfg.execution_enabled
  · simp [execute_files, he, executeFrom_map_fst]
  · simp [execute_files, he, Function.comp_def]

lemma executeFrom_getElem? (env : Env) (cfg : RunConfig) (bb : Nat → List Nat → BatchOutcome)
    (ib : Nat → InterOutcome) (dur : Nat → Nat) :
    ∀ (files : List SourceFile) (k i : Nat),
      (executeFrom env cfg bb ib dur k files)[i]? =
        (files[i]?).map (fun f => (f, runFile env cfg bb ib dur (k + i) f)) := by
  intro files
  induction files with
  | nil => intro k i; simp [executeFrom]
  | cons f fs ih =>
    intro k i
    cases i with
    | zero => simp [executeFrom]
    | succ j =>
      have h : k + 1 + j = k + (j + 1) := by omega
      simp [executeFrom, ih (k + 1) j, h]

lemma execute_files_getElem? (env : Env) (cfg : RunConfig) (bb : Nat → List Nat → BatchOutcome)
    (ib : Nat → InterOutcome) (dur : Nat → Nat) (files : List SourceFile)
    (he : cfg.execution_enabled = true) (i : Nat) :
    (execute_files env cfg bb ib dur files)[i]? =
      (files[i]?).map (fun f => (f, runFile env cfg bb ib dur i f)) := by
  simp [execute_files, he, executeFrom_getElem?]

/-- Claim C4: for every input sequence of SourceFiles and every RunConfig,
execute_files returns exactly one (file, optional result) pair per input
file, in the same order as the input sequence, and never raises (the loop
body catches every per-file failure, which the embedding reflects by the
oracles naming the caught outcome; the function is total); per-file
failures are contained within that file entry. -/
theorem c4_one_entry_per_file (env : Env) (cfg : RunConfig)
    (bb : Nat → List Nat → BatchOutcome) (ib : Nat → InterOutcome) (dur : Nat → Nat)
    (files : List SourceFile) :
    (execute_files env cfg bb ib dur files).map Prod.fst = files :=
  execute_files_map_fst env cfg bb ib dur files

/-- Claim C6: with execution disabled the returned sequence pairs every
file with none, in order, and the engine consults no process oracle
(the output is independent of all oracles). -/
theorem c6_disabled_all_none (env : Env) (cfg : RunConfig)
    (bb : Nat → List Nat → BatchOutcome) (ib : Nat → InterOutcome) (dur : Nat → Nat)
    (files : List SourceFile) (hd : cfg.execution_enabled = false) :
    execute_files env cfg bb ib dur files = files.map (fun f => (f, none))
    ∧ ∀ (bb2 : Nat → List Nat → BatchOutcome) (ib2 : Nat → InterOutcome) (dur2 : Nat → Nat),
        execute_files env cfg bb2 ib2 dur2 files = execute_files env cfg bb ib dur files := by
  constructor
  · simp [execute_files, hd]
  · intro bb2 ib2 dur2
    simp [execute_files, hd]

/-- Witness for C6 at a concrete disabled configuration. -/
theorem c6_disabled_all_none_witness :
    execute_files envX cfgD bbZero ibZero (fun _ => 0) [fileX] = [(fileX, none)] := by
  have h := c6_disabled_all_none envX cfgD bbZero ibZero (fun _ => 0) [fileX] rfl
  simpa using h.1

/-- Claim C7: the command resolver maps any unknown language to the empty
command, and a file whose language resolves to the empty command is paired
with none regardless of the execution-enabled state. -/
theorem c7_no_runner_none :
    (∀ (pythonExe file_path language : String),
        language ≠ "Python" → language ≠ "Java" →
        get_runner_command pythonExe file_path language = [])
    ∧ ∀ (env : Env) (cfg : RunConfig) (bb : Nat → List Nat → BatchOutcome)
        (ib : Nat → InterOutcome) (dur : Nat → Nat) (files : List SourceFile)
        (i : Nat) (f : SourceFile),
        files[i]? = some f →
        get_runner_command env.pythonExe f.path f.language = [] →
        (execute_files env cfg bb ib dur files)[i]? = some (f, none) := by
  constructor
  · intro p fp lang h1 h2
    simp [get_runner_command, h1, h2]
  · intro env cfg bb ib dur files i f hf hcmd
    by_cases he : cfg.execution_enabled
    · rw [execute_files_getElem? env cfg bb ib dur files he, hf]
      simp [runFile, hcmd]
    · simp [execute_files, he, hf]

/-- Witness for C7 at a concrete unsupported language. -/
theorem c7_no_runner_none_witness :
    get_runner_command "/usr/bin/python3" "/work/x.lua" "Lua" = []
    ∧ (execute_files envX cfgB bbZero ibZero (fun _ => 0)
        [{ path := "/work/x.lua", rel_path := "x.lua", language := "Lua" }])[0]?
      = some ({ path := "/work/x.lua", rel_path := "x.lua", language := "Lua" }, none) := by
  refine ⟨c7_no_runner_none.1 "/usr/bin/python3" "/work/x.lua" "Lua" (by decide) (by decide), ?_⟩
  exact c7_no_runner_none.2 envX cfgB bbZero ibZero (fun _ => 0) _ 0 _ rfl (by decide)

lemma runFile_inter_timedOut (env : Env) (cfg : RunConfig) (bb : Nat → List Nat → BatchOutcome)
    (ib : Nat → InterOutcome) (dur : Nat → Nat) (i : Nat) (f : SourceFile)
    (capOut capErr : List String)
    (hI : cfg.interactive = true) (hib : ib i = .timedOut capOut capErr)
    (hcmd : (get_runner_command env.pythonExe f.path f.language).isEmpty = false) :
    runFile env cfg bb ib dur i f = some
      { stdout := String.join capOut, stderr := String.join capErr, exit_code := -1,
        duration := dur i,
        command := shlexJoin (get_runner_command env.pythonExe f.path f.language),
        context := mkContext env, timed_out := true } := by
  simp [runFile, hcmd, hI, hib]

lemma runFile_batch_timeoutExpired (env : Env) (cfg : RunConfig)
    (bb : Nat → List Nat → BatchOutcome) (ib : Nat → InterOutcome) (dur : Nat → Nat)
    (i : Nat) (f : SourceFile) (pOut pErr msg : String)
    (hI : cfg.interactive = false) (hbb : bb i (stdinBytes cfg) = .timeoutExpired pOut pErr msg)
    (hcmd : (get_runner_command env.pythonExe f.path f.language).isEmpty = false) :
    runFile env cfg bb ib dur i f = some
      { stdout := "", stderr := msg, exit_code := -1, duration := dur i,
        command := shlexJoin (get_runner_command env.pythonExe f.path f.language),
        context := mkContext env, timed_out := false } := by
  simp [runFile, hcmd, hI, hbb]

lemma runFile_inter_popenFail (env : Env) (cfg : RunConfig) (bb : Nat → List Nat → BatchOutcome)
    (ib : Nat → InterOutcome) (dur : Nat → Nat) (i : Nat) (f : SourceFile) (msg : String)
    (hI : cfg.interactive = true) (hib : ib i = .popenFail msg)
    (hcmd : (get_runner_command env.pythonExe f.path f.language).isEmpty = false) :
    runFile env cfg bb ib dur i f = some
      { stdout := "", stderr := msg, exit_code := -1, duration := dur i,
        command := shlexJoin (get_runner_command env.pythonExe f.path f.language),
        context := mkContext env, timed_out := false } := by
  simp [runFile, hcmd, hI, hib]

lemma runFile_batch_launchError (env : Env) (cfg : RunConfig)
    (bb : Nat → List Nat → BatchOutcome) (ib : Nat → InterOutcome) (dur : Nat → Nat)
    (i : Nat) (f : SourceFile) (msg : String)
    (hI : cfg.interactive = false) (hbb : bb i (stdinBytes cfg) = .launchError msg)
    (hcmd : (get_runner_command env.pythonExe f.path f.language).isEmpty = false) :
    runFile env cfg bb ib dur i f = some
      { stdout := "", stderr := msg, exit_code := -1, duration := dur i,
        command := shlexJoin (get_runner_command env.pythonExe f.path f.language),
        context := mkContext env, timed_out := false } := by
  simp [runFile, hcmd, hI, hbb]

lemma runFile_context (env : Env) (cfg : RunConfig) (bb : Nat → List Nat → BatchOutcome)
    (ib : Nat → InterOutcome) (dur : Nat → Nat) (i : Nat) (f : SourceFile)
    (r : ExecutionResult) (h : runFile env cfg bb ib dur i f = some r) :
    r.context = mkContext env := by
  simp only [runFile] at h
  split at h
  · exact absurd h (by simp)
  · rw [Option.some_inj] at h
    subst h
    split
    · cases ib i <;> rfl
    · cases bb i (stdinBytes cfg) <;> rfl

/-- Counterexample to claim C1 as stated: in batch mode a child that
exceeds the timeout makes subprocess.run raise TimeoutExpired, which the
generic exception handler at line 188 catches with timed_out set to
False, so the produced ExecutionResult does not have timed_out = true. -/
theorem c1_counterexample :
    (execute_files envX cfgB
        (fun _ _ => .timeoutExpired "partial-out" "partial-err"
          "Command timed out after 5 seconds")
        ibZero (fun _ => 7) [fileX]).map
      (fun p => p.2.map (fun r => (r.timed_out, r.exit_code)))
      = [some (false, -1)] := by decide

/-- Claim C1 as amended: for a run whose child exceeds the timeout, in
interactive mode the result has timed_out = true and exit_code = -1; in
batch mode the TimeoutExpired exception falls into the generic handler,
so the result has exit_code = -1 but timed_out = false and the exception
text in stderr. -/
theorem c1_timeout_flag (env : Env) (cfg : RunConfig) (bb : Nat → List Nat → BatchOutcome)
    (ib : Nat → InterOutcome) (dur : Nat → Nat) (files : List SourceFile)
    (i : Nat) (f : SourceFile)
    (hf : files[i]? = some f) (he : cfg.execution_enabled = true)
    (hcmd : (get_runner_command env.pythonExe f.path f.language).isEmpty = false) :
    (∀ capOut capErr, cfg.interactive = true → ib i = .timedOut capOut capErr →
      ∃ r, (execute_files env cfg bb ib dur files)[i]? = some (f, some r)
        ∧ r.timed_out = true ∧ r.exit_code = -1)
    ∧ (∀ pOut pErr msg, cfg.interactive = false →
        bb i (stdinBytes cfg) = .timeoutExpired pOut pErr msg →
      ∃ r, (execute_files env cfg bb ib dur files)[i]? = some (f, some r)
        ∧ r.timed_out = false ∧ r.exit_code = -1 ∧ r.stderr = msg) := by
  constructor
  · intro capOut capErr hI hib
    refine ⟨{ stdout := String.join capOut, stderr := String.join capErr, exit_code := -1,
              duration := dur i,
              command := shlexJoin (get_runner_command env.pythonExe f.path f.language),
              context := mkContext env, timed_out := true }, ?_, rfl, rfl⟩
    rw [execute_files_getElem? env cfg bb ib dur files he, hf]
    simp [runFile_inter_timedOut env cfg bb ib dur i f capOut capErr hI hib hcmd]
  · intro pOut pErr msg hI hbb
    refine ⟨{ stdout := "", stderr := msg, exit_code := -1, duration := dur i,
              command := shlexJoin (get_runner_command env.pythonExe f.path f.language),
              context := mkContext env, timed_out := false }, ?_, rfl, rfl, rfl⟩
    rw [execute_files_getElem? env cfg bb ib dur files he, hf]
    simp [runFile_batch_timeoutExpired env cfg bb ib dur i f pOut pErr msg hI hbb hcmd]

/-- Witness for the amended C1 at a concrete interactive timeout. -/
theorem c1_timeout_flag_witness :
    (execute_files envX cfgI bbZero (fun _ => .timedOut ["x"] ["y"]) (fun _ => 3)
        [fileX])[0]?.map (fun p => p.2.map (fun r => (r.timed_out, r.exit_code)))
      = some (some (true, -1)) := by
  obtain ⟨r, hr, ht, hc⟩ := (c1_timeout_flag envX cfgI bbZero
    (fun _ => .timedOut ["x"] ["y"]) (fun _ => 3) [fileX] 0 fileX rfl rfl (by decide)).1
    ["x"] ["y"] rfl rfl
  rw [hr]
  simp [ht, hc]

/-- Counterexample to claim C3 as stated: in batch mode the partial
output held by the TimeoutExpired exception is not retained — the
result has empty stdout and the exception text as stderr. -/
theorem c3_counterexample :
    (execute_files envX cfgB
        (fun _ _ => .timeoutExpired "partial-out" "partial-err" "timeout-message")
        ibZero (fun _ => 0) [fileX]).map
      (fun p => p.2.map (fun r => (r.stdout, r.stderr)))
      = [some ("", "timeout-message")] := by decide

/-- Claim C3 as amended: on a timeout, in interactive mode the stdout
and stderr captured by the relays before the kill are retained in the
result; in batch mode the partial output is lost — stdout is empty and
stderr holds the exception text. -/
theorem c3_partial_output (env : Env) (cfg : RunConfig) (bb : Nat → List Nat → BatchOutcome)
    (ib : Nat → InterOutcome) (dur : Nat → Nat) (files : List SourceFile)
    (i : Nat) (f : SourceFile)
    (hf : files[i]? = some f) (he : cfg.execution_enabled = true)
    (hcmd : (get_runner_command env.pythonExe f.path f.language).isEmpty = false) :
    (∀ capOut capErr, cfg.interactive = true → ib i = .timedOut capOut capErr →
      ∃ r, (execute_files env cfg bb ib dur files)[i]? = some (f, some r)
        ∧ r.stdout = String.join capOut ∧ r.stderr = String.join capErr)
    ∧ (∀ pOut pErr msg, cfg.interactive = false →
        bb i (stdinBytes cfg) = .timeoutExpired pOut pErr msg →
      ∃ r, (execute_files env cfg bb ib dur files)[i]? = some (f, some r)
        ∧ r.stdout = "" ∧ r.stderr = msg) := by
  constructor
  · intro capOut capErr hI hib
    refine ⟨{ stdout := String.join capOut, stderr := String.join capErr, exit_code := -1,
              duration := dur i,
              command := shlexJoin (get_runner_command env.pythonExe f.path f.language),
              context := mkContext env, timed_out := true }, ?_, rfl, rfl⟩
    rw [execute_files_getElem? env cfg bb ib dur files he, hf]
    simp [runFile_inter_timedOut env cfg bb ib dur i f capOut capErr hI hib hcmd]
  · intro pOut pErr msg hI hbb
    refine ⟨{ stdout := "", stderr := msg, exit_code := -1, duration := dur i,
              command := shlexJoin (get_runner_command env.pythonExe f.path f.language),
              context := mkContext env, timed_out := false }, ?_, rfl, rfl⟩
    rw [execute_files_getElem? env cfg bb ib dur files he, hf]
    simp [runFile_batch_timeoutExpired env cfg bb ib dur i f pOut pErr msg hI hbb hcmd]

/-- Witness for the amended C3 at a concrete interactive timeout. -/
theorem c3_partial_output_witness :
    (execute_files envX cfgI bbZero (fun _ => .timedOut ["he", "llo"] ["er"]) (fun _ => 0)
        [fileX])[0]?.map (fun p => p.2.map (fun r => (r.stdout, r.stderr)))
      = some (some ("hello", "er")) := by
  obtain ⟨r, hr, ho, hm⟩ := (c3_partial_output envX cfgI bbZero
    (fun _ => .timedOut ["he", "llo"] ["er"]) (fun _ => 0) [fileX] 0 fileX rfl rfl
    (by decide)).1 ["he", "llo"] ["er"] rfl rfl
  rw [hr]
  simp [ho, hm]
  decide

/-- Claim C5: a per-file failure other than timeout (launch failure in
batch mode, Popen failure in interactive mode) yields a result with no
captured output, the diagnostic text in stderr, exit code -1, the
timeout flag clear, and the batch still produces one entry per file. -/
theorem c5_launch_failure (env : Env) (cfg : RunConfig) (bb : Nat → List Nat → BatchOutcome)
    (ib : Nat → InterOutcome) (dur : Nat → Nat) (files : List SourceFile)
    (i : Nat) (f : SourceFile) (msg : String)
    (hf : files[i]? = some f) (he : cfg.execution_enabled = true)
    (hcmd : (get_runner_command env.pythonExe f.path f.language).isEmpty = false)
    (hfail : (cfg.interactive = true ∧ ib i = .popenFail msg)
      ∨ (cfg.interactive = false ∧ bb i (stdinBytes cfg) = .launchError msg)) :
    (∃ r, (execute_files env cfg bb ib dur files)[i]? = some (f, some r)
      ∧ r.stdout = "" ∧ r.stderr = msg ∧ r.exit_code = -1 ∧ r.timed_out = false)
    ∧ (execute_files env cfg bb ib dur files).map Prod.fst = files := by
  refine ⟨?_, execute_files_map_fst env cfg bb ib dur files⟩
  rcases hfail with ⟨hI, hib⟩ | ⟨hI, hbb⟩
  · refine ⟨{ stdout := "", stderr := msg, exit_code := -1, duration := dur i,
              command := shlexJoin (get_runner_command env.pythonExe f.path f.language),
              context := mkContext env, timed_out := false }, ?_, rfl, rfl, rfl, rfl⟩
    rw [execute_files_getElem? env cfg bb ib dur files he, hf]
    simp [runFile_inter_popenFail env cfg bb ib dur i f msg hI hib hcmd]
  · refine ⟨{ stdout := "", stderr := msg, exit_code := -1, duration := dur i,
              command := shlexJoin (get_runner_command env.pythonExe f.path f.language),
              context := mkContext env, timed_out := false }, ?_, rfl, rfl, rfl, rfl⟩
    rw [execute_files_getElem? env cfg bb ib dur files he, hf]
    simp [runFile_batch_launchError env cfg bb ib dur i f msg hI hbb hcmd]

/-- Witness for C5 at a concrete batch-mode launch failure. -/
theorem c5_launch_failure_witness :
    (execute_files envX cfgB (fun _ _ => .launchError "No such file or directory")
        ibZero (fun _ => 0) [fileX])[0]?.map
      (fun p => p.2.map (fun r => (r.stdout, r.stderr, r.exit_code, r.timed_out)))
      = some (some ("", "No such file or directory", -1, false)) := by
  obtain ⟨⟨r, hr, h1, h2, h3, h4⟩, _⟩ := c5_launch_failure envX cfgB
    (fun _ _ => .launchError "No such file or directory") ibZero (fun _ => 0) [fileX] 0 fileX
    "No such file or directory" rfl rfl (by decide) (Or.inr ⟨rfl, rfl⟩)
  rw [hr]
  simp [h1, h2, h3, h4]

/-- Claim C10: every produced ExecutionResult carries the context built
at lines 80-84 — exactly the keys cwd, env_user and env_os, with
env_user the USERNAME environment value or the literal unknown when
USERNAME is unset. -/
theorem c10_context_exact (env : Env) (cfg : RunConfig) (bb : Nat → List Nat → BatchOutcome)
    (ib : Nat → InterOutcome) (dur : Nat → Nat) (files : List SourceFile)
    (i : Nat) (f : SourceFile) (r : ExecutionResult)
    (h : (execute_files env cfg bb ib dur files)[i]? = some (f, some r)) :
    r.context = mkContext env
    ∧ r.context.map Prod.fst = ["cwd", "env_user", "env_os"]
    ∧ (env.username = none →
        r.context = [("cwd", env.cwd), ("env_user", "unknown"), ("env_os", env.osName)]) := by
  have hctx : r.context = mkContext env := by
    by_cases he : cfg.execution_enabled
    · rw [execute_files_getElem? env cfg bb ib dur files he] at h
      cases hf : files[i]? with
      | none => rw [hf] at h; simp at h
      | some f2 =>
        rw [hf] at h
        simp only [Option.map_some'] at h
        rw [Option.some_inj] at h
        have hrun : runFile env cfg bb ib dur i f2 = some r := by
          have := congrArg Prod.snd h
          simpa using this
        exact runFile_context env cfg bb ib dur i f2 r hrun
    · simp only [execute_files, he, if_false, Bool.false_eq_true] at h
      cases hf : files[i]? with
      | none => simp [hf] at h
      | some f2 => simp [hf] at h
  refine ⟨hctx, ?_, ?_⟩
  · simp [hctx, mkContext]
  · intro hu
    simp [hctx, mkContext, hu]

/-- Witness for C10 at a concrete run with USERNAME unset. -/
theorem c10_context_exact_witness :
    (execute_files envN cfgB bbZero ibZero (fun _ => 0) [fileX])[0]?.map
      (fun p => p.2.map (fun r => r.context))
      = some (some [("cwd", "/w"), ("env_user", "unknown"), ("env_os", "nt")]) := by
  have hg : (execute_files envN cfgB bbZero ibZero (fun _ => 0) [fileX])[0]? =
      some (fileX, some { stdout := "", stderr := "", exit_code := 0, duration := 0,
                          command := "py -u /work/a.py",
                          context := [("cwd", "/w"), ("env_user", "unknown"),
                                      ("env_os", "nt")],
                          timed_out := false }) := by decide
  have h := c10_context_exact envN cfgB bbZero ibZero (fun _ => 0) [fileX] 0 fileX _ hg
  rw [hg]
  exact congrArg some (congrArg some (h.2.2 rfl))

/-- Counterexample to claim C2 as stated: with stdin-input set to abc
and an existing input-file whose bytes encode xyz, the claim requires
the child to be fed the file bytes, but the engine feeds the UTF-8
encoding of stdin-input — the input-file configuration is never read
(executor.py line 164).  The discriminating batch oracle exposes which
bytes the child received. -/
theorem c2_counterexample :
    specStdinBytes true (utf8Encode "xyz") cfgB = utf8Encode "xyz"
    ∧ stdinBytes cfgB = utf8Encode "abc"
    ∧ utf8Encode "abc" ≠ utf8Encode "xyz"
    ∧ (execute_files envX cfgB
        (fun _ inp => if inp = utf8Encode "abc" then .ok "fed-stdin-text" "" 0
                      else .ok "fed-something-else" "" 1)
        ibZero (fun _ => 0) [fileX]).map (fun p => p.2.map (fun r => r.stdout))
      = [some "fed-stdin-text"] := by
  refine ⟨by decide, by decide, by decide, by decide⟩

/-- Claim C2 as amended: in batch mode the child stdin is always the
UTF-8 encoding of config.stdin-input when that is set and nonempty,
empty bytes otherwise; config.input-file is never consulted (the run
outcome depends on the batch oracle only at the stdinBytes value). -/
theorem c2_stdin_selection :
    (∀ cfg : RunConfig,
      (cfg.stdin_input = none → stdinBytes cfg = [])
      ∧ ∀ s, cfg.stdin_input = some s →
          stdinBytes cfg = if s = "" then [] else utf8Encode s)
    ∧ ∀ (env : Env) (cfg : RunConfig) (bb bb2 : Nat → List Nat → BatchOutcome)
        (ib : Nat → InterOutcome) (dur : Nat → Nat) (files : List SourceFile),
        cfg.interactive = false →
        (∀ i, bb i (stdinBytes cfg) = bb2 i (stdinBytes cfg)) →
        execute_files env cfg bb ib dur files = execute_files env cfg bb2 ib dur files := by
  constructor
  · intro cfg
    constructor
    · intro h; simp [stdinBytes, h]
    · intro s h; simp [stdinBytes, h]
  · intro env cfg bb bb2 ib dur files hI hbb
    unfold execute_files
    split
    · have hall : ∀ (k : Nat) (fs : List SourceFile),
          executeFrom env cfg bb ib dur k fs = executeFrom env cfg bb2 ib dur k fs := by
        intro k fs
        induction fs generalizing k with
        | nil => rfl
        | cons f fs ih => simp [executeFrom, ih, runFile, hI, hbb k]
      exact hall 0 files
    · rfl

/-- Witness for the amended C2 at the concrete batch configuration. -/
theorem c2_stdin_selection_witness :
    stdinBytes cfgB = utf8Encode "abc"
    ∧ execute_files envX cfgB
        (fun i inp => if inp = [] then .ok "weird" "" 1 else bbZero i inp)
        ibZero (fun _ => 0) [fileX]
      = execute_files envX cfgB bbZero ibZero (fun _ => 0) [fileX] := by
  constructor
  · have h := (c2_stdin_selection.1 cfgB).2 "abc" rfl
    simpa using h
  · refine c2_stdin_selection.2 envX cfgB _ bbZero ibZero (fun _ => 0) [fileX] rfl ?_
    intro i
    have hne : stdinBytes cfgB = [97, 98, 99] := by decide
    simp [hne, bbZero]

/-- Claim C9: in the interactive input relay, a terminal line is
appended to the stdout transcript only when its write and flush to the
child stdin succeeded; the transcript is a prefix of the terminal
lines; and at the first iteration whose write fails (the child still
alive, all earlier writes successful) the relay stops with exactly the
earlier lines recorded, the failing line never recorded. -/
theorem c9_input_relay (alive writeOk : Nat → Bool) (lines : List String) (i : Nat) :
    (inputRelay alive writeOk lines i
      = lines.take (inputRelay alive writeOk lines i).length)
    ∧ (∀ j, j < (inputRelay alive writeOk lines i).length →
        writeOk (i + j) = true ∧ alive (i + j) = true)
    ∧ (∀ j, j < lines.length → (∀ k, k ≤ j → alive (i + k) = true) →
        (∀ k, k < j → writeOk (i + k) = true) → writeOk (i + j) = false →
        (inputRelay alive writeOk lines i).length = j) := by
  induction lines generalizing i with
  | nil =>
    refine ⟨by simp [inputRelay], by simp [inputRelay], ?_⟩
    intro j hj
    simp at hj
  | cons l ls ih =>
    by_cases ha : alive i
    · by_cases hw : writeOk i
      · have hrel : inputRelay alive writeOk (l :: ls) i
            = l :: inputRelay alive writeOk ls (i + 1) := by
          simp [inputRelay, ha, hw]
        obtain ⟨ih1, ih2, ih3⟩ := ih (i + 1)
        refine ⟨?_, ?_, ?_⟩
        · rw [hrel]
          simp only [List.length_cons, List.take_succ_cons]
          rw [← ih1]
        · intro j hj
          rw [hrel] at hj
          cases j with
          | zero => simpa using ⟨hw, ha⟩
          | succ k =>
            simp only [List.length_cons, Nat.succ_lt_succ_iff] at hj
            have := ih2 k hj
            constructor
            · have h1 := this.1
              have : i + (k + 1) = i + 1 + k := by omega
              rw [this]
              exact h1
            · have h2 := (ih2 k hj).2
              have : i + (k + 1) = i + 1 + k := by omega
              rw [this]
              exact h2
        · intro j hj hal hwr hfail
          cases j with
          | zero => rw [Nat.add_zero] at hfail; rw [hfail] at hw; exact absurd hw (by simp)
          | succ k =>
            rw [hrel]
            simp only [List.length_cons]
            congr 1
            apply ih3 k (by simpa using hj)
            · intro m hm
              have : i + 1 + m = i + (m + 1) := by omega
              rw [this]
              exact hal (m + 1) (by omega)
            · intro m hm
              have : i + 1 + m = i + (m + 1) := by omega
              rw [this]
              exact hwr (m + 1) (by omega)
            · have : i + 1 + k = i + (k + 1) := by omega
              rw [this]
              exact hfail
      · have hrel : inputRelay alive writeOk (l :: ls) i = [] := by
          simp [inputRelay, ha, hw]
        refine ⟨by simp [hrel], by simp [hrel], ?_⟩
        intro j hj hal hwr hfail
        rw [hrel]
        simp only [List.length_nil]
        by_contra hne
        have hj0 : 0 < j := by omega
        have := hwr 0 hj0
        rw [Nat.add_zero] at this
        rw [this] at hw
        exact hw rfl
      -- end writeOk cases
    · have hrel : inputRelay alive writeOk (l :: ls) i = [] := by
        simp [inputRelay, ha]
      refine ⟨by simp [hrel], by simp [hrel], ?_⟩
      intro j hj hal hwr hfail
      have := hal 0 (by omega)
      rw [Nat.add_zero] at this
      rw [this] at ha
      exact absurd rfl ha

/-- Witness for C9: two successful writes, then a failing one. -/
theorem c9_input_relay_witness :
    inputRelay (fun _ => true) (fun k => decide (k < 2))
        ["first", "second", "third"] 0 = ["first", "second"] := by
  have h := c9_input_relay (fun _ => true) (fun k => decide (k < 2))
    ["first", "second", "third"] 0
  have hlen : (inputRelay (fun _ => true) (fun k => decide (k < 2))
      ["first", "second", "third"] 0).length = 2 := by
    refine h.2.2 2 (by decide) (fun k _ => rfl) (fun k hk => ?_) (by decide)
    interval_cases k <;> decide
  rw [h.1, hlen]
  decide

lemma isWsChar_apos : isWsChar apos = false := by decide

lemma isWsChar_dq : isWsChar dq = false := by decide

lemma isWsChar_space : isWsChar ' ' = true := by decide

lemma isQChar_apos : isQChar apos = true := by decide

lemma isQChar_dq : isQChar dq = true := by decide

lemma apos_ne_bslash : apos ≠ bslash := by decide

lemma apos_ne_dq : apos ≠ dq := by decide

lemma dq_ne_bslash : dq ≠ bslash := by decide

lemma data_mk (l : List Char) : (String.mk l).data = l := rfl

lemma data_append (a b : String) : (a ++ b).data = a.data ++ b.data := rfl

lemma data_space : (" " : String).data = [' '] := rfl

lemma data_empty : ("" : String).data = [] := rfl

lemma safe_plain (c : Char) (h : safeChar c = true) : PlainChar c := by
  refine ⟨?_, ?_, ?_⟩
  · by_contra hw
    rw [Bool.not_eq_false] at hw
    simp only [isWsChar, Bool.or_eq_true, decide_eq_true_eq] at hw
    rcases hw with ((rfl | rfl) | rfl) | rfl <;> revert h <;> decide
  · by_contra hq
    rw [Bool.not_eq_false] at hq
    simp only [isQChar, Bool.or_eq_true, decide_eq_true_eq] at hq
    rcases hq with rfl | rfl <;> revert h <;> decide
  · rintro rfl
    revert h
    decide

lemma splitLoop_plain (t : List Char) (h : ∀ c ∈ t, PlainChar c) :
    ∀ rest tok quoted acc, splitLoop (t ++ rest) .word tok quoted acc
      = splitLoop rest .word (tok ++ t) quoted acc := by
  induction t with
  | nil => intro rest tok quoted acc; simp
  | cons c cs ih =>
    intro rest tok quoted acc
    obtain ⟨hw, hq, hb⟩ := h c (List.mem_cons_self c cs)
    have hcs : ∀ x ∈ cs, PlainChar x := fun x hx => h x (List.mem_cons_of_mem c hx)
    rw [List.cons_append]
    simp only [splitLoop, hw, hq, hb, Bool.false_eq_true, if_false]
    rw [ih hcs rest (tok ++ [c]) quoted acc]
    simp

lemma splitLoop_quoteInner (t : List Char) :
    ∀ rest tok quoted acc,
      splitLoop (quoteInner t ++ (apos :: rest)) (.inQ apos) tok quoted acc
        = splitLoop rest .word (tok ++ t) true acc := by
  induction t with
  | nil =>
    intro rest tok quoted acc
    simp [quoteInner, splitLoop]
  | cons c cs ih =>
    intro rest tok quoted acc
    by_cases hc : c = apos
    · subst hc
      simp only [quoteInner, if_pos rfl, List.cons_append]
      simp only [splitLoop, isWsChar_apos, isWsChar_dq, isQChar_apos, isQChar_dq,
        apos_ne_bslash, apos_ne_dq, dq_ne_bslash, Bool.false_eq_true, if_false,
        if_true, eq_self_iff_true, false_and, if_neg, ite_false, ite_true,
        List.append_eq]
      rw [ih rest (tok ++ [apos]) true acc]
      simp
    · simp only [quoteInner, if_neg hc, List.cons_append]
      simp only [splitLoop, if_neg hc]
      have hnot : ¬(c = bslash ∧ apos = dq) := by
        rintro ⟨-, had⟩
        exact apos_ne_dq had
      rw [if_neg hnot]
      rw [ih rest (tok ++ [c]) true acc]
      simp

lemma emitTok_qFlag (t : String) (acc : List String) :
    emitTok t.data (qFlag t) acc = acc ++ [t] := by
  have hmk : String.mk t.data = t := rfl
  by_cases he : t.data.isEmpty
  · simp [emitTok, qFlag, he, hmk]
  · simp [emitTok, qFlag, he, hmk]

lemma splitLoop_shQuote (t : String) :
    ∀ rest acc, splitLoop ((shQuote t).data ++ rest) .ws [] false acc
      = splitLoop rest .word t.data (qFlag t) acc := by
  intro rest acc
  by_cases he : t.data.isEmpty
  · have ht : t.data = [] := by
      cases h : t.data with
      | nil => rfl
      | cons c cs => rw [h] at he; simp at he
    simp only [shQuote, he, if_true, ite_true, data_mk]
    simp only [List.cons_append, List.nil_append, splitLoop, isWsChar_apos,
      isQChar_apos, apos_ne_bslash, Bool.false_eq_true, if_false, if_true,
      eq_self_iff_true, ite_true, ite_false, if_neg, Bool.false_or,
      List.isEmpty_nil, Bool.not_true]
    rw [ht]
    simp [qFlag, he]
  · have hall : t.data.all safeChar = true ∨ t.data.all safeChar = false := by
      cases t.data.all safeChar <;> simp
    rcases hall with hs | hs
    · -- safe and nonempty: shQuote t = t
      have hplain : ∀ x ∈ t.data, PlainChar x := by
        intro x hx
        exact safe_plain x (by
          rw [List.all_eq_true] at hs
          simpa using hs x hx)
      obtain ⟨c, cs, ht⟩ : ∃ c cs, t.data = c :: cs := by
        cases h : t.data with
        | nil => rw [h] at he; simp at he
        | cons c cs => exact ⟨c, cs, rfl⟩
      have hq : qFlag t = false := by simp [qFlag, he, hs]
      simp only [shQuote, he, hs, if_true, ite_true, if_false, ite_false,
        Bool.false_eq_true]
      rw [ht, hq, List.cons_append]
      obtain ⟨hw, hqc, hb⟩ := hplain c (ht ▸ List.mem_cons_self c cs)
      simp only [splitLoop, hw, hqc, hb, Bool.false_eq_true, if_false]
      have hcs : ∀ x ∈ cs, PlainChar x := by
        intro x hx
        exact hplain x (ht ▸ List.mem_cons_of_mem c hx)
      rw [splitLoop_plain cs hcs rest [c] false acc]
      simp
    · -- unsafe: shQuote t = apos :: quoteInner t.data ++ [apos]
      have hq : qFlag t = true := by simp [qFlag, hs]
      simp only [shQuote, he, hs, if_false, ite_false, Bool.false_eq_true, data_mk]
      rw [hq, List.cons_append, List.append_assoc, List.singleton_append]
      simp only [splitLoop, isWsChar_apos, isQChar_apos, apos_ne_bslash,
        Bool.false_eq_true, if_false, if_true, eq_self_iff_true, ite_true,
        ite_false, if_neg]
      rw [splitLoop_quoteInner t.data rest [] false acc]
      simp

lemma splitLoop_join (xs : List String) :
    ∀ acc, splitLoop (shlexJoin xs).data .ws [] false acc = some (acc ++ xs) := by
  induction xs with
  | nil =>
    intro acc
    simp [shlexJoin, data_empty, splitLoop, emitTok]
  | cons x tail ih =>
    intro acc
    cases tail with
    | nil =>
      show splitLoop (shQuote x).data .ws [] false acc = some (acc ++ [x])
      have h1 := splitLoop_shQuote x [] acc
      rw [List.append_nil] at h1
      rw [h1]
      simp only [splitLoop]
      rw [emitTok_qFlag]
    | cons y ys =>
      have hdata : (shlexJoin (x :: y :: ys)).data
          = (shQuote x).data ++ (' ' :: (shlexJoin (y :: ys)).data) := by
        show ((shQuote x ++ " ") ++ shlexJoin (y :: ys)).data = _
        rw [data_append, data_append, data_space]
        simp
      rw [hdata, splitLoop_shQuote x (' ' :: (shlexJoin (y :: ys)).data) acc]
      simp only [splitLoop, isWsChar_space, if_true, ite_true]
      rw [emitTok_qFlag]
      rw [ih (acc ++ [x])]
      simp

/-- shlex.split of shlex.join returns the original token list. -/
lemma shlexJoin_roundtrip (xs : List String) : shlexSplit (shlexJoin xs) = some xs := by
  have h := splitLoop_join xs []
  simpa [shlexSplit] using h

lemma execute_files_run (env : Env) (cfg : RunConfig) (bb : Nat → List Nat → BatchOutcome)
    (ib : Nat → InterOutcome) (dur : Nat → Nat) (files : List SourceFile)
    (i : Nat) (f : SourceFile) (r : ExecutionResult)
    (h : (execute_files env cfg bb ib dur files)[i]? = some (f, some r)) :
    runFile env cfg bb ib dur i f = some r := by
  by_cases he : cfg.execution_enabled
  · rw [execute_files_getElem? env cfg bb ib dur files he] at h
    cases hf : files[i]? with
    | none => rw [hf] at h; simp at h
    | some f2 =>
      rw [hf] at h
      simp only [Option.map_some'] at h
      rw [Option.some_inj] at h
      have hfst : f2 = f := congrArg Prod.fst h
      have hsnd : runFile env cfg bb ib dur i f2 = some r := congrArg Prod.snd h
      rw [hfst] at hsnd
      exact hsnd
  · simp only [execute_files, he, Bool.false_eq_true, if_false, ite_false] at h
    cases hf : files[i]? with
    | none => simp [hf] at h
    | some f2 => simp [hf] at h

lemma runFile_command (env : Env) (cfg : RunConfig) (bb : Nat → List Nat → BatchOutcome)
    (ib : Nat → InterOutcome) (dur : Nat → Nat) (i : Nat) (f : SourceFile)
    (r : ExecutionResult) (h : runFile env cfg bb ib dur i f = some r) :
    r.command = shlexJoin (get_runner_command env.pythonExe f.path f.language) := by
  simp only [runFile] at h
  split at h
  · exact absurd h (by simp)
  · rw [Option.some_inj] at h
    subst h
    split
    · cases ib i <;> rfl
    · cases bb i (stdinBytes cfg) <;> rfl

/-- Claim C8: every produced ExecutionResult carries in its command
field the resolved command rendered through shlex.join, and
re-tokenizing that string with shlex.split reproduces exactly the
program and argument list that was used to launch the child. -/
theorem c8_command_roundtrip (env : Env) (cfg : RunConfig) (bb : Nat → List Nat → BatchOutcome)
    (ib : Nat → InterOutcome) (dur : Nat → Nat) (files : List SourceFile)
    (i : Nat) (f : SourceFile) (r : ExecutionResult)
    (h : (execute_files env cfg bb ib dur files)[i]? = some (f, some r)) :
    r.command = shlexJoin (get_runner_command env.pythonExe f.path f.language)
    ∧ shlexSplit r.command = some (get_runner_command env.pythonExe f.path f.language) := by
  have hcmd := runFile_command env cfg bb ib dur i f r
    (execute_files_run env cfg bb ib dur files i f r h)
  refine ⟨hcmd, ?_⟩
  rw [hcmd]
  exact shlexJoin_roundtrip _

/-- Witness for C8 at a concrete run, including a path that needs
quoting (a space inside the file path). -/
theorem c8_command_roundtrip_witness :
    shlexSplit ("/usr/bin/python3 -u "
        ++ String.mk (apos :: ("/work/dir with space/a.py".data ++ [apos])))
      = some ["/usr/bin/python3", "-u", "/work/dir with space/a.py"] := by
  have hg : (execute_files envX cfgI bbZero ibZero (fun _ => 0)
      [{ path := "/work/dir with space/a.py", rel_path := "a.py", language := "Python" }])[0]?
      = some ({ path := "/work/dir with space/a.py", rel_path := "a.py",
                language := "Python" },
          some { stdout := "", stderr := "", exit_code := 0, duration := 0,
                 command := "/usr/bin/python3 -u "
                   ++ String.mk (apos :: ("/work/dir with space/a.py".data ++ [apos])),
                 context := [("cwd", "/work"), ("env_user", "alice"), ("env_os", "posix")],
                 timed_out := false }) := by decide
  have h := c8_command_roundtrip envX cfgI bbZero ibZero (fun _ => 0)
    [{ path := "/work/dir with space/a.py", rel_path := "a.py", language := "Python" }]
    0 _ _ hg
  have h2 := h.2
  have hcl : get_runner_command envX.pythonExe "/work/dir with space/a.py" "Python"
      = ["/usr/bin/python3", "-u", "/work/dir with space/a.py"] := by decide
  rw [hcl] at h2
  exact h2
